import Mathlib

/-!
Verification of the concise event renderer of `codex-exec`
(`event_processor_with_concise_output.rs`) and its transcript sink
(`transcript_log.rs`), as a shallow embedding in Lean 4.

The renderer consumes tagged events one at a time, correlates paired
begin/end events through two call-id keyed maps, retains the latest
token-usage snapshot, emits formatted console/transcript lines and
returns a loop-control signal.  All side effects (printed lines,
transcript writes, the delegated last-message write, file-system
operations of the sink) are made explicit as data in the result of each
operation so that theorems can speak about them.
-/

namespace Codex

/-- The loop-control signal returned by `process_event`
(`crate::event_processor::CodexStatus`).  The spec calls `Running`
"Continue". -/
inductive CodexStatus where
  | Running
  | InitiateShutdown
  | Shutdown
deriving DecidableEq, Repr

/-- A terminal style value (`owo_colors::Style`).  We only need to
distinguish the concrete styles the renderer constructs: five ANSI
styles when `with_ansi` is set, and the default (empty) style
otherwise. -/
inductive Style where
  | default
  | bold
  | green
  | red
  | cyan
  | dimmed
deriving DecidableEq, Repr

/-- A line emitted by the renderer: `status` lines go through
`emit_status` (timestamp-prefixed, styled), `plain` lines through
`emit_plain_line` (verbatim). -/
inductive Line where
  | status (msg : String) (style : Style)
  | plain (msg : String)
deriving DecidableEq, Repr

/-- `TokenUsage` (`codex_core::protocol`): only its `blended_total()`
reading is consumed by the renderer; modelled as that reading. -/
structure TokenUsage where
  blended_total : Nat
deriving DecidableEq, Repr

/-- `TokenUsageInfo` (`codex_core::protocol`): the renderer reads
`info.total_token_usage.blended_total()`. -/
structure TokenUsageInfo where
  total_token_usage : TokenUsage
deriving DecidableEq, Repr

/-- `StepStatus` of the plan tool. -/
inductive StepStatus where
  | Completed
  | InProgress
  | Pending
deriving DecidableEq, Repr

/-- One plan item: a step description and its status. -/
structure PlanItem where
  step : String
  status : StepStatus
deriving DecidableEq, Repr

/-- `UpdatePlanArgs`: optional explanation plus the plan items. -/
structure UpdatePlanArgs where
  explanation : Option String
  plan : List PlanItem
deriving DecidableEq, Repr

/-- `ExecCommandBeginEvent`: the renderer reads `call_id` and `command`
(the rest of the payload is ignored by the `..` pattern). -/
structure ExecCommandBeginEvent where
  call_id : String
  command : List String
deriving DecidableEq, Repr

/-- `ExecCommandEndEvent`: the renderer reads `call_id`, `exit_code`
and `duration` (the rest is ignored).  `duration` is a
`std::time::Duration`; we model it abstractly as nanoseconds. -/
structure ExecCommandEndEvent where
  call_id : String
  exit_code : Int
  duration : Nat
deriving DecidableEq, Repr

/-- `PatchApplyBeginEvent`: call id, auto-approval flag, and the map of
changes of which only the length is read (modelled as the file
count). -/
structure PatchApplyBeginEvent where
  call_id : String
  auto_approved : Bool
  changes_len : Nat
deriving DecidableEq, Repr

/-- `PatchApplyEndEvent`: the renderer reads `call_id` and `success`
(the rest is ignored). -/
structure PatchApplyEndEvent where
  call_id : String
  success : Bool
deriving DecidableEq, Repr

/-- `TaskCompleteEvent`. -/
structure TaskCompleteEvent where
  last_agent_message : Option String
deriving DecidableEq, Repr

/-- `TokenCountEvent`: optionally carries usage info. -/
structure TokenCountEvent where
  info : Option TokenUsageInfo
deriving DecidableEq, Repr

/-- The closed set of event tags matched by `process_event`.  Payloads
the renderer never reads are modelled as `Unit`. -/
inductive EventMsg where
  | Error (message : String)
  | BackgroundEvent (u : Unit)
  | StreamError (message : String)
  | TaskStarted (u : Unit)
  | TaskComplete (ev : TaskCompleteEvent)
  | TokenCount (ev : TokenCountEvent)
  | ExecCommandBegin (ev : ExecCommandBeginEvent)
  | ExecCommandEnd (ev : ExecCommandEndEvent)
  | ExecCommandOutputDelta (u : Unit)
  | PatchApplyBegin (ev : PatchApplyBeginEvent)
  | PatchApplyEnd (ev : PatchApplyEndEvent)
  | TurnDiff (u : Unit)
  | ExecApprovalRequest (u : Unit)
  | ApplyPatchApprovalRequest (u : Unit)
  | AgentReasoning (u : Unit)
  | AgentReasoningRawContent (u : Unit)
  | AgentReasoningDelta (u : Unit)
  | AgentReasoningRawContentDelta (u : Unit)
  | AgentReasoningSectionBreak (u : Unit)
  | AgentMessageDelta (u : Unit)
  | AgentMessage (message : String)
  | McpToolCallBegin (u : Unit)
  | McpToolCallEnd (u : Unit)
  | WebSearchBegin (u : Unit)
  | WebSearchEnd (u : Unit)
  | SessionConfigured (u : Unit)
  | PlanUpdate (ev : UpdatePlanArgs)
  | GetHistoryEntryResponse (u : Unit)
  | McpListToolsResponse (u : Unit)
  | ListCustomPromptsResponse (u : Unit)
  | TurnAborted (u : Unit)
  | ShutdownComplete
  | ConversationPath (u : Unit)
  | UserMessage (u : Unit)
  | EnteredReviewMode (u : Unit)
  | ExitedReviewMode (u : Unit)
deriving DecidableEq, Repr

/-- A `PendingCommand` map entry (`struct ExecCommandBegin` in the
source): the invoked command and the monotonic start instant
(`Instant`, modelled as a `Nat` timestamp). -/
structure ExecCommandBegin where
  command : List String
  start_time : Nat
deriving DecidableEq, Repr

/-- A `PendingPatch` map entry (`struct PatchApplyBegin` in the
source). -/
structure PatchApplyBegin where
  start_time : Nat
  auto_approved : Bool
deriving DecidableEq, Repr

/-- The renderer state (`EventProcessorWithConciseOutput`).  The two
correlation `HashMap`s are modelled as partial functions from call id;
`transcript_log` only determines whether lines are mirrored, so it is
modelled by its presence. -/
structure State where
  has_transcript_log : Bool
  call_id_to_command : String → Option ExecCommandBegin
  call_id_to_patch : String → Option PatchApplyBegin
  status_style : Style
  success_style : Style
  error_style : Style
  info_style : Style
  timestamp_style : Style
  last_message_path : Option String
  latest_token_usage : Option TokenUsageInfo

/-- `EventProcessorWithConciseOutput::new`: style quintuple chosen by
`with_ansi`, empty correlation maps, no retained usage. -/
def State.new (with_ansi : Bool) (last_message_path : Option String)
    (has_transcript_log : Bool) : State :=
  let styles : Style × Style × Style × Style × Style :=
    if with_ansi then
      (Style.bold, Style.green, Style.red, Style.cyan, Style.dimmed)
    else
      (Style.default, Style.default, Style.default, Style.default, Style.default)
  { has_transcript_log := has_transcript_log
    call_id_to_command := fun _ => none
    call_id_to_patch := fun _ => none
    status_style := styles.1
    success_style := styles.2.1
    error_style := styles.2.2.1
    info_style := styles.2.2.2.1
    timestamp_style := styles.2.2.2.2
    last_message_path := last_message_path
    latest_token_usage := none }

/-- External inputs of one `process_event` call that the source obtains
from the environment: the current monotonic instant (`Instant::now`),
and the external formatting helpers `format_duration` and
`format_elapsed` from `codex_common::elapsed` (not part of this
repository; `fmtElapsed` takes the recorded start instant, as in the
source `started_at.map(format_elapsed)`). -/
structure Ext where
  now : Nat
  fmtDuration : Nat → String
  fmtElapsed : Nat → String

/-- `shlex::try_join`, the external quoting routine used by
`escape_command`.  Modelled from the spec: "rendered as a single
shell-quoted string using POSIX quoting rules (arguments containing
special characters are quoted; if quoting fails for any reason, fall
back ...)" — joining fails when an argument contains a NUL byte,
otherwise each argument is emitted verbatim when it consists only of
shell-safe characters and single-quoted otherwise, and the results are
joined by single spaces. -/
def tryJoin (args : List String) : Option String :=
  if args.any (fun a => a.toList.contains (Char.ofNat 0)) then
    none
  else
    some (String.intercalate " " (args.map quoteWord))
where
  /-- Characters that never need quoting. -/
  isSafeChar (c : Char) : Bool :=
    c.isAlphanum || c = '_' || c = '@' || c = '%' || c = '+' || c = '=' ||
      c = ':' || c = ',' || c = '.' || c = '/' || c = '-'
  quoteWord (a : String) : String :=
    if a ≠ "" && a.toList.all isSafeChar then a
    else "'" ++ String.join (a.toList.map fun c =>
      if c = '\'' then "'\\''" else String.singleton c) ++ "'"

/-- `escape_command`: shell-quote the argument vector, falling back to
whitespace-joining when quoting fails. -/
def escape_command (command : List String) : String :=
  (tryJoin command).getD (String.intercalate " " command)

/-- The result of one renderer operation: the control signal, the
updated state, the lines emitted (to console, and mirrored to the
transcript when one is attached), and the delegated call to the
external last-message writer (`handle_last_message(msg, path)`), if
any. -/
structure StepResult where
  status : CodexStatus
  state : State
  output : List Line
  lastMessageWrite : Option (Option String × String)

/-- Split a character list at `'\n'` separators (an empty list yields
one empty segment, as `str::split` does). -/
def splitNl : List Char → List (List Char)
  | [] => [[]]
  | c :: rest =>
      if c = '\n' then [] :: splitNl rest
      else
        match splitNl rest with
        | [] => [[c]]
        | l :: ls => (c :: l) :: ls

/-- `str::lines()` of Rust: split on `\n`, dropping one trailing empty
segment and stripping a trailing `\r` from each line. -/
def rustLines (s : String) : List String :=
  if s.data = [] then []
  else
    let parts := splitNl s.data
    let parts := if parts.getLast? = some [] then parts.dropLast else parts
    parts.map fun l => String.mk (if l.getLast? = some '\r' then l.dropLast else l)

/-- `s.trim().is_empty()` of Rust: every character is whitespace. -/
def isBlank (s : String) : Bool := s.data.all Char.isWhitespace

/-- `emit_status`: one styled, timestamp-prefixed line (mirrored to the
transcript when attached). -/
def emitStatus (msg : String) (style : Style) : List Line :=
  [Line.status msg style]

/-- `emit_plain_line`: one verbatim line. -/
def emitPlainLine (msg : String) : List Line :=
  [Line.plain msg]

/-- `emit_multiline`: one plain line per line of the message. -/
def emitMultiline (msg : String) : List Line :=
  (rustLines msg).map Line.plain

/-- `handle_exec_begin`: record the pending command keyed by call id
with the current instant, and emit the "Running command" status
line. -/
def handleExecBegin (ext : Ext) (st : State) (ev : ExecCommandBeginEvent) :
    State × List Line :=
  let st' := { st with
    call_id_to_command := fun k =>
      if k = ev.call_id then
        some { command := ev.command, start_time := ext.now }
      else st.call_id_to_command k }
  let escaped := escape_command ev.command
  (st', emitStatus ("Running command: " ++ escaped) st.status_style)

/-- `handle_exec_end`: consume the matching pending entry (synthesizing
`"command <id>"` when absent), prefer the wall-clock elapsed string
over the event's self-reported duration unless the former is empty, and
emit the success/failure line. -/
def handleExecEnd (ext : Ext) (st : State) (ev : ExecCommandEndEvent) :
    State × List Line :=
  let entry := st.call_id_to_command ev.call_id
  let st' := { st with
    call_id_to_command := fun k =>
      if k = ev.call_id then none else st.call_id_to_command k }
  let commandStart : String × Option Nat :=
    match entry with
    | some e => (escape_command e.command, some e.start_time)
    | none => ("command " ++ ev.call_id, none)
  let command := commandStart.1
  let duration_str := ext.fmtDuration ev.duration
  let elapsed_str := commandStart.2.map ext.fmtElapsed
  let suffix := ((elapsed_str.filter fun runtime => !runtime.isEmpty).getD duration_str)
  if ev.exit_code = 0 then
    (st', emitStatus
      ("Command succeeded (exit " ++ toString ev.exit_code ++ ", " ++ suffix ++ "): " ++ command)
      st.success_style)
  else
    (st', emitStatus
      ("Command failed (exit " ++ toString ev.exit_code ++ ", " ++ suffix ++ "): " ++ command)
      st.error_style)

/-- `handle_patch_begin`: record the pending patch and emit the
"Applying patch" status line. -/
def handlePatchBegin (ext : Ext) (st : State) (ev : PatchApplyBeginEvent) :
    State × List Line :=
  let st' := { st with
    call_id_to_patch := fun k =>
      if k = ev.call_id then
        some { start_time := ext.now, auto_approved := ev.auto_approved }
      else st.call_id_to_patch k }
  let approval := if ev.auto_approved then "auto-approved" else "awaiting approval"
  (st', emitStatus
    ("Applying patch (" ++ approval ++ ", " ++ toString ev.changes_len ++ " files)")
    st.status_style)

/-- `handle_patch_end`: consume the matching pending entry (absent ⇒
not auto-approved, no duration) and emit one of the four summary
templates, success- or error-styled. -/
def handlePatchEnd (ext : Ext) (st : State) (ev : PatchApplyEndEvent) :
    State × List Line :=
  let entry := st.call_id_to_patch ev.call_id
  let st' := { st with
    call_id_to_patch := fun k =>
      if k = ev.call_id then none else st.call_id_to_patch k }
  let approvedStart : Bool × Option Nat :=
    match entry with
    | some e => (e.auto_approved, some e.start_time)
    | none => (false, none)
  let duration := approvedStart.2.map ext.fmtElapsed
  let approval := if approvedStart.1 then "auto-approved" else "manual"
  let summary :=
    match ev.success, duration with
    | true, some dur => "Patch applied (" ++ approval ++ ", " ++ dur ++ ")"
    | true, none => "Patch applied (" ++ approval ++ ")"
    | false, some dur => "Patch failed (" ++ approval ++ ", " ++ dur ++ ")"
    | false, none => "Patch failed (" ++ approval ++ ")"
  let style := if ev.success then st.success_style else st.error_style
  (st', emitStatus summary style)

/-- The glyph chosen for a plan step's status. -/
def stepMarker : StepStatus → String
  | StepStatus.Completed => "✓"
  | StepStatus.InProgress => "→"
  | StepStatus.Pending => "•"

/-- `handle_plan_update`: header, optional non-blank explanation, then
one marker-prefixed line per step. -/
def handlePlanUpdate (st : State) (plan : UpdatePlanArgs) : State × List Line :=
  let summary := plan.plan.map fun item => stepMarker item.status ++ " " ++ item.step
  let header := emitStatus "Plan update" st.info_style
  let explanationLines :=
    match plan.explanation with
    | some explanation =>
        if ¬(isBlank explanation) then emitPlainLine explanation else []
    | none => []
  (st, header ++ explanationLines ++ summary.flatMap emitPlainLine)

/-- `handle_token_count`: overwrite the retained snapshot when the
event carries usage info. -/
def handleTokenCount (st : State) (ev : TokenCountEvent) : State :=
  match ev.info with
  | some info => { st with latest_token_usage := some info }
  | none => st

/-- `emit_final_token_usage`: take (clear) the snapshot and, when one
was retained, emit the total line. -/
def emitFinalTokenUsage (st : State) : State × List Line :=
  match st.latest_token_usage with
  | some info =>
      ({ st with latest_token_usage := none },
        emitStatus ("Total tokens used: " ++ toString info.total_token_usage.blended_total)
          st.info_style)
  | none => (st, [])

/-- `process_event`: the exhaustive dispatch over the event tag. -/
def processEvent (ext : Ext) (st : State) (msg : EventMsg) : StepResult :=
  let continue_ (st : State) (out : List Line) : StepResult :=
    { status := CodexStatus.Running, state := st, output := out, lastMessageWrite := none }
  match msg with
  | EventMsg.Error message =>
      continue_ st (emitStatus ("Error: " ++ message) st.error_style)
  | EventMsg.BackgroundEvent _ => continue_ st []
  | EventMsg.StreamError message =>
      continue_ st (emitStatus ("Stream error: " ++ message) st.error_style)
  | EventMsg.TaskStarted _ => continue_ st []
  | EventMsg.TaskComplete ev =>
      let write := st.last_message_path.map fun p => (ev.last_agent_message, p)
      let msgLines :=
        match ev.last_agent_message with
        | some message =>
            if ¬(isBlank message) then
              emitStatus "Final result:" st.status_style ++ emitMultiline message
            else
              emitStatus "Task complete (no final message)." st.status_style
        | none => emitStatus "Task complete (no final message)." st.status_style
      let stFinal := emitFinalTokenUsage st
      { status := CodexStatus.InitiateShutdown
        state := stFinal.1
        output := msgLines ++ stFinal.2
        lastMessageWrite := write }
  | EventMsg.TokenCount ev => continue_ (handleTokenCount st ev) []
  | EventMsg.ExecCommandBegin ev =>
      let r := handleExecBegin ext st ev
      continue_ r.1 r.2
  | EventMsg.ExecCommandEnd ev =>
      let r := handleExecEnd ext st ev
      continue_ r.1 r.2
  | EventMsg.ExecCommandOutputDelta _ => continue_ st []
  | EventMsg.PatchApplyBegin ev =>
      let r := handlePatchBegin ext st ev
      continue_ r.1 r.2
  | EventMsg.PatchApplyEnd ev =>
      let r := handlePatchEnd ext st ev
      continue_ r.1 r.2
  | EventMsg.TurnDiff _ => continue_ st []
  | EventMsg.ExecApprovalRequest _ => continue_ st []
  | EventMsg.ApplyPatchApprovalRequest _ => continue_ st []
  | EventMsg.AgentReasoning _ => continue_ st []
  | EventMsg.AgentReasoningRawContent _ => continue_ st []
  | EventMsg.AgentReasoningDelta _ => continue_ st []
  | EventMsg.AgentReasoningRawContentDelta _ => continue_ st []
  | EventMsg.AgentReasoningSectionBreak _ => continue_ st []
  | EventMsg.AgentMessageDelta _ => continue_ st []
  | EventMsg.AgentMessage message =>
      if ¬(isBlank message) then
        continue_ st (emitStatus "Agent message:" st.info_style ++ emitMultiline message)
      else
        continue_ st []
  | EventMsg.McpToolCallBegin _ => continue_ st []
  | EventMsg.McpToolCallEnd _ => continue_ st []
  | EventMsg.WebSearchBegin _ => continue_ st []
  | EventMsg.WebSearchEnd _ => continue_ st []
  | EventMsg.SessionConfigured _ => continue_ st []
  | EventMsg.PlanUpdate ev =>
      let r := handlePlanUpdate st ev
      continue_ r.1 r.2
  | EventMsg.GetHistoryEntryResponse _ => continue_ st []
  | EventMsg.McpListToolsResponse _ => continue_ st []
  | EventMsg.ListCustomPromptsResponse _ => continue_ st []
  | EventMsg.TurnAborted _ =>
      continue_ st (emitStatus "Task aborted" st.error_style)
  | EventMsg.ShutdownComplete =>
      { status := CodexStatus.Shutdown, state := st, output := [], lastMessageWrite := none }
  | EventMsg.ConversationPath _ => continue_ st []
  | EventMsg.UserMessage _ => continue_ st []
  | EventMsg.EnteredReviewMode _ => continue_ st []
  | EventMsg.ExitedReviewMode _ => continue_ st []

/-- Drive the renderer over a sequence of events, each with its own
environment snapshot (instant and formatting helpers), collecting the
concatenated output.  This is the external driver loop of the spec,
restricted to `process_event`. -/
def processEvents (st : State) : List (Ext × EventMsg) → State × List Line
  | [] => (st, [])
  | (ext, e) :: es =>
      let r := processEvent ext st e
      let rest := processEvents r.state es
      (rest.1, r.output ++ rest.2)

/-- Does this event tag denote task completion? -/
def isTaskCompleteEv : EventMsg → Bool
  | EventMsg.TaskComplete _ => true
  | _ => false

/-- Does this event carry a token-usage record? -/
def carriesUsage : EventMsg → Bool
  | EventMsg.TokenCount ev => ev.info.isSome
  | _ => false

/-- The usage record an event carries, if any. -/
def usageOf : EventMsg → Option TokenUsageInfo
  | EventMsg.TokenCount ev => ev.info
  | _ => none

/-- The usage snapshot retained after folding a sequence of events over
an initial snapshot: the last usage record carried by a token-count
event, the initial snapshot if none occurs (latest wins, never
merged). -/
def lastUsage (init : Option TokenUsageInfo) : List (Ext × EventMsg) → Option TokenUsageInfo
  | [] => init
  | p :: es => lastUsage ((usageOf p.2).or init) es

/-- Is this line the final token-usage line ("Total tokens used: ...")? -/
def isTotalLine : Line → Bool
  | Line.status m _ => List.isPrefixOf "Total tokens used: ".data m.data
  | Line.plain _ => false

/-- The suppressed event tags named by the spec: streaming deltas,
reasoning traces, approval requests, tool-call begin/end, search
begin/end, session-configured, history/listing responses, review-mode
transitions, background events, command output deltas. -/
def suppressedTag : EventMsg → Bool
  | EventMsg.AgentMessageDelta _ => true
  | EventMsg.AgentReasoning _ => true
  | EventMsg.AgentReasoningRawContent _ => true
  | EventMsg.AgentReasoningDelta _ => true
  | EventMsg.AgentReasoningRawContentDelta _ => true
  | EventMsg.AgentReasoningSectionBreak _ => true
  | EventMsg.ExecApprovalRequest _ => true
  | EventMsg.ApplyPatchApprovalRequest _ => true
  | EventMsg.McpToolCallBegin _ => true
  | EventMsg.McpToolCallEnd _ => true
  | EventMsg.WebSearchBegin _ => true
  | EventMsg.WebSearchEnd _ => true
  | EventMsg.SessionConfigured _ => true
  | EventMsg.GetHistoryEntryResponse _ => true
  | EventMsg.McpListToolsResponse _ => true
  | EventMsg.ListCustomPromptsResponse _ => true
  | EventMsg.EnteredReviewMode _ => true
  | EventMsg.ExitedReviewMode _ => true
  | EventMsg.BackgroundEvent _ => true
  | EventMsg.ExecCommandOutputDelta _ => true
  | _ => false

/-- Does this event insert a pending-command entry for call id `c`
(only a command-begin event with that call id does)? -/
def beginsCommandFor (c : String) : EventMsg → Bool
  | EventMsg.ExecCommandBegin ev => ev.call_id = c
  | _ => false

/-! ## Config summary (`print_config_summary`) -/

/-- `SessionConfiguredEvent`: the summary reads `session_id` and
`model` (the rest is ignored). -/
structure SessionConfiguredEvent where
  session_id : String
  model : String
deriving DecidableEq, Repr

/-- The configuration snapshot as consumed by the summary: the entries
produced by the external `create_config_summary_entries(config)`
(ordered key/value string pairs) and the working directory
(`config.cwd.display()`). -/
structure Config where
  summary_entries : List (String × String)
  cwd : String
deriving DecidableEq, Repr

/-- `print_config_summary`: banner, session line, model line, the
`"sandbox"`-filtered entries, working-directory line, `"Prompt:"`
header, then the prompt echoed as plain lines.  `version` is the
compile-time `CARGO_PKG_VERSION`. -/
def printConfigSummary (version : String) (st : State) (config : Config)
    (prompt : String) (session_configured : SessionConfiguredEvent) :
    State × List Line :=
  let banner :=
    emitStatus ("Codex (v" ++ version ++ ") non-interactive session") st.status_style
  let sessionLine :=
    emitStatus ("Session " ++ session_configured.session_id ++ " using model " ++
      session_configured.model) st.info_style
  let modelLine := emitStatus ("model: " ++ session_configured.model) st.info_style
  let entryLines := config.summary_entries.flatMap fun kv =>
    if kv.1 = "sandbox" then emitStatus (kv.1 ++ ": " ++ kv.2) st.info_style else []
  let cwdLine := emitStatus ("Working directory: " ++ config.cwd) st.info_style
  let promptHeader := emitStatus "Prompt:" st.status_style
  (st, banner ++ sessionLine ++ modelLine ++ entryLines ++ cwdLine ++ promptHeader ++
    emitMultiline prompt)

/-! ## Transcript sink (`transcript_log.rs`)

File-system effects are made explicit: `TranscriptLog.create` consults
an oracle for the outcome of each operation and records the operations
it performed; `TranscriptLog.write_line` takes the outcomes of the
write and the flush and returns the diagnostics it printed to stderr.
-/

/-- An I/O error (`std::io::Error`), identified by its message. -/
structure IoError where
  msg : String
deriving DecidableEq, Repr

/-- The open options requested from `OpenOptions`. -/
structure OpenOpts where
  create : Bool
  truncate : Bool
  write : Bool
deriving DecidableEq, Repr

/-- A file-system operation performed by the sink. -/
inductive FsOp where
  | createDirAll (dir : String)
  | openFile (path : String) (opts : OpenOpts)
deriving DecidableEq, Repr

/-- The environment's answers to file-system requests. -/
structure FsOracle where
  createDirAll : String → Except IoError Unit
  openFile : String → OpenOpts → Except IoError Unit

/-- A file-system path: its rendering and its (optional) parent
directory, as `Path::parent` reports it. -/
structure FilePathM where
  full : String
  parent : Option String
deriving DecidableEq, Repr

/-- The open sink: the flushed file contents and the not-yet-flushed
`BufWriter` buffer. -/
structure TranscriptLog where
  fileContent : String
  pending : String
deriving DecidableEq, Repr

/-- `TranscriptLog::create`: create the parent directory chain when the
path has a parent, then open the file with create+truncate+write; the
first failing operation's error is returned to the caller.  Also
returns the operations attempted, in order. -/
def TranscriptLog.create (fs : FsOracle) (path : FilePathM) :
    Except IoError TranscriptLog × List FsOp :=
  let opts : OpenOpts := { create := true, truncate := true, write := true }
  match path.parent with
  | some parent =>
      (match fs.createDirAll parent with
       | Except.error e => (Except.error e, [FsOp.createDirAll parent])
       | Except.ok _ =>
           (match fs.openFile path.full opts with
            | Except.error e =>
                (Except.error e, [FsOp.createDirAll parent, FsOp.openFile path.full opts])
            | Except.ok _ =>
                (Except.ok { fileContent := "", pending := "" },
                  [FsOp.createDirAll parent, FsOp.openFile path.full opts])))
  | none =>
      (match fs.openFile path.full opts with
       | Except.error e => (Except.error e, [FsOp.openFile path.full opts])
       | Except.ok _ =>
           (Except.ok { fileContent := "", pending := "" }, [FsOp.openFile path.full opts]))

/-- `TranscriptLog::write_line`: append the line plus a newline, then
flush.  `writeErr`/`flushErr` are the outcomes of the two fallible
operations; a failure is reported as a stderr diagnostic (returned
here) and the call returns normally either way. -/
def TranscriptLog.write_line (log : TranscriptLog) (line : String)
    (writeErr flushErr : Option IoError) : TranscriptLog × List String :=
  match writeErr with
  | some err => (log, ["Failed to write transcript log line: " ++ err.msg])
  | none =>
      let log' : TranscriptLog := { log with pending := log.pending ++ line ++ "\n" }
      match flushErr with
      | some err => (log', ["Failed to flush transcript log: " ++ err.msg])
      | none =>
          ({ fileContent := log'.fileContent ++ log'.pending, pending := "" }, [])

/-! ## Theorems -/

/-- A concrete environment snapshot for concrete evaluations. -/
def ext0 : Ext := { now := 7, fmtDuration := fun _ => "5ms", fmtElapsed := fun _ => "1s" }

/-- A concrete initial renderer state (no ANSI, no last-message path,
no transcript) for concrete evaluations. -/
def st0 : State := State.new false none false

/-- C1: every task-complete event returns `InitiateShutdown`; a present,
non-blank final message is rendered as a "Final result:" status line
followed by the message body as plain lines, any other case as the
"Task complete (no final message)." line (followed in either case by
the final token-usage emission); and the external last-message writer
is invoked exactly when a last-message path is configured, with that
message and path. -/
theorem taskComplete_final_message (ext : Ext) (st : State) (m : Option String) :
    (processEvent ext st (EventMsg.TaskComplete ⟨m⟩)).status = CodexStatus.InitiateShutdown ∧
    (processEvent ext st (EventMsg.TaskComplete ⟨m⟩)).output =
      (match m with
       | some message =>
           if isBlank message then
             [Line.status "Task complete (no final message)." st.status_style]
           else
             Line.status "Final result:" st.status_style :: (rustLines message).map Line.plain
       | none => [Line.status "Task complete (no final message)." st.status_style])
      ++ (emitFinalTokenUsage st).2 ∧
    (processEvent ext st (EventMsg.TaskComplete ⟨m⟩)).lastMessageWrite
      = st.last_message_path.map (fun p => (m, p)) ∧
    ((processEvent ext st (EventMsg.TaskComplete ⟨m⟩)).lastMessageWrite.isSome
      ↔ st.last_message_path.isSome) := by
  refine ⟨rfl, ?_, ?_, ?_⟩
  · cases m with
    | none => simp [processEvent, emitStatus, emitFinalTokenUsage]
    | some message =>
        by_cases hb : isBlank message <;>
          simp [processEvent, emitStatus, emitMultiline, hb]
  · rfl
  · cases h : st.last_message_path <;> simp [processEvent, h]

/-- Scenario check: `TaskComplete{last_agent_message: Some("done")}`
with no configured path emits "Final result:" then "done", returns
`InitiateShutdown`, and delegates no write. -/
example :
    processEvent ext0 st0 (EventMsg.TaskComplete ⟨some "done"⟩) =
      { status := CodexStatus.InitiateShutdown
        state := st0
        output := [Line.status "Final result:" Style.default, Line.plain "done"]
        lastMessageWrite := none } := rfl

/-- C2 counterexample: the task-complete dispatch branch is neither the
shutdown-complete branch nor in the suppressed set, yet it returns
`InitiateShutdown`, not `Continue` — refuting "every dispatch branch
other than the shutdown-complete branch and the suppressed set returns
Continue". -/
theorem taskComplete_not_continue :
    suppressedTag (EventMsg.TaskComplete ⟨none⟩) = false ∧
    (EventMsg.TaskComplete ⟨none⟩) ≠ EventMsg.ShutdownComplete ∧
    (processEvent ext0 st0 (EventMsg.TaskComplete ⟨none⟩)).status = CodexStatus.InitiateShutdown ∧
    CodexStatus.InitiateShutdown ≠ CodexStatus.Running :=
  ⟨rfl, by decide, rfl, by decide⟩

/-- C2 (amended): `processEvent` returns exactly one of `Continue`
(`Running`), `InitiateShutdown` and `Shutdown`; the shutdown-complete
branch alone returns `Shutdown`; the task-complete branch alone returns
`InitiateShutdown`; every other branch — the suppressed set included —
returns `Continue`. -/
theorem processEvent_status_classification (ext : Ext) (st : State) (e : EventMsg) :
    ((processEvent ext st e).status = CodexStatus.Running ∨
      (processEvent ext st e).status = CodexStatus.InitiateShutdown ∨
      (processEvent ext st e).status = CodexStatus.Shutdown) ∧
    ((processEvent ext st e).status = CodexStatus.Shutdown ↔ e = EventMsg.ShutdownComplete) ∧
    ((processEvent ext st e).status = CodexStatus.InitiateShutdown ↔
      ∃ ev, e = EventMsg.TaskComplete ev) ∧
    (suppressedTag e = true → (processEvent ext st e).status = CodexStatus.Running) := by
  cases e <;>
    simp [processEvent, suppressedTag, handleExecBegin, handleExecEnd,
      handlePatchBegin, handlePatchEnd, handlePlanUpdate, handleTokenCount] <;>
    split <;> simp

/-- Fusing the "): " separator with the synthesized "command " label. -/
theorem cmd_label_fuse (s : String) :
    ("): " : String) ++ ("command " ++ s) = "): command " ++ s := by
  rw [← String.append_assoc]; rfl

/-- C3: a command-end event removes the matching pending entry; with no
entry the label is the synthesized `"command <id>"` and the displayed
duration is the event's self-reported one; with an entry the wall-clock
elapsed string is preferred unless empty; and a begin→end pair sharing
a call id renders the begin event's command through the same shell
quoting in both lines. -/
theorem execEnd_correlation (ext : Ext) (st : State) (ev : ExecCommandEndEvent) :
    (processEvent ext st (EventMsg.ExecCommandEnd ev)).state.call_id_to_command ev.call_id
      = none ∧
    (st.call_id_to_command ev.call_id = none →
      (processEvent ext st (EventMsg.ExecCommandEnd ev)).output =
        [Line.status
          ((if ev.exit_code = 0 then "Command succeeded (exit " else "Command failed (exit ")
            ++ toString ev.exit_code ++ ", " ++ ext.fmtDuration ev.duration ++ "): command "
            ++ ev.call_id)
          (if ev.exit_code = 0 then st.success_style else st.error_style)]) ∧
    (∀ entry, st.call_id_to_command ev.call_id = some entry →
      (processEvent ext st (EventMsg.ExecCommandEnd ev)).output =
        [Line.status
          ((if ev.exit_code = 0 then "Command succeeded (exit " else "Command failed (exit ")
            ++ toString ev.exit_code ++ ", "
            ++ (if (ext.fmtElapsed entry.start_time).isEmpty then ext.fmtDuration ev.duration
                else ext.fmtElapsed entry.start_time)
            ++ "): " ++ escape_command entry.command)
          (if ev.exit_code = 0 then st.success_style else st.error_style)]) ∧
    (∀ (extB : Ext) (evb : ExecCommandBeginEvent),
      (processEvent extB st (EventMsg.ExecCommandBegin evb)).output =
        [Line.status ("Running command: " ++ escape_command evb.command) st.status_style] ∧
      (processEvent extB st (EventMsg.ExecCommandBegin evb)).state.call_id_to_command evb.call_id
        = some { command := evb.command, start_time := extB.now } ∧
      (evb.call_id = ev.call_id →
        (processEvent ext
            ((processEvent extB st (EventMsg.ExecCommandBegin evb)).state)
            (EventMsg.ExecCommandEnd ev)).output =
          [Line.status
            ((if ev.exit_code = 0 then "Command succeeded (exit " else "Command failed (exit ")
              ++ toString ev.exit_code ++ ", "
              ++ (if (ext.fmtElapsed extB.now).isEmpty then ext.fmtDuration ev.duration
                  else ext.fmtElapsed extB.now)
              ++ "): " ++ escape_command evb.command)
            (if ev.exit_code = 0 then st.success_style else st.error_style)])) := by
  refine ⟨?_, ?_, ?_, ?_⟩
  · simp only [processEvent, handleExecEnd]
    split <;> simp
  · intro h
    by_cases hz : ev.exit_code = 0 <;>
      simp [processEvent, handleExecEnd, h, emitStatus, hz, String.append_assoc,
        cmd_label_fuse]
  · intro entry h
    by_cases hz : ev.exit_code = 0 <;>
      by_cases he : (ext.fmtElapsed entry.start_time).isEmpty <;>
        simp [processEvent, handleExecEnd, h, emitStatus, hz, he, Option.filter,
          String.append_assoc]
  · intro extB evb
    refine ⟨by simp [processEvent, handleExecBegin, emitStatus], ?_, ?_⟩
    · simp [processEvent, handleExecBegin]
    · intro hid
      have hid' : ev.call_id = evb.call_id := hid.symm
      by_cases hz : ev.exit_code = 0 <;>
        by_cases he : (ext.fmtElapsed extB.now).isEmpty <;>
          simp [processEvent, handleExecBegin, handleExecEnd, emitStatus, hz, he,
            Option.filter, hid', String.append_assoc]

/-- Scenario check: begin `{id "1", cmd ["echo","hi"]}` then end
`{id "1", exit 0}` renders "Running command: echo hi" and a
success-styled "Command succeeded (exit 0, ...): echo hi". -/
example :
    (processEvent ext0 st0
        (EventMsg.ExecCommandBegin ⟨"1", ["echo", "hi"]⟩)).output =
      [Line.status "Running command: echo hi" Style.default] ∧
    (processEvent ext0
        ((processEvent ext0 st0 (EventMsg.ExecCommandBegin ⟨"1", ["echo", "hi"]⟩)).state)
        (EventMsg.ExecCommandEnd ⟨"1", 0, 5⟩)).output =
      [Line.status "Command succeeded (exit 0, 1s): echo hi" Style.default] := by
  constructor <;> rfl

/-- C4: a patch-end event removes the matching pending entry; with no
entry the approval defaults to non-auto-approved ("manual") and the
duration is unknown; exactly one line is emitted, its template chosen
by {success, failure} × {duration known, unknown}, success-styled on
success and error-styled on failure in all four cases. -/
theorem patchEnd_templates (ext : Ext) (st : State) (ev : PatchApplyEndEvent) :
    (processEvent ext st (EventMsg.PatchApplyEnd ev)).state.call_id_to_patch ev.call_id
      = none ∧
    (st.call_id_to_patch ev.call_id = none →
      (processEvent ext st (EventMsg.PatchApplyEnd ev)).output =
        [Line.status
          (if ev.success then "Patch applied (manual)" else "Patch failed (manual)")
          (if ev.success then st.success_style else st.error_style)]) ∧
    (∀ entry, st.call_id_to_patch ev.call_id = some entry →
      (processEvent ext st (EventMsg.PatchApplyEnd ev)).output =
        [Line.status
          ((if ev.success then "Patch applied (" else "Patch failed (")
            ++ (if entry.auto_approved then "auto-approved" else "manual")
            ++ ", " ++ ext.fmtElapsed entry.start_time ++ ")")
          (if ev.success then st.success_style else st.error_style)]) := by
  refine ⟨?_, ?_, ?_⟩
  · simp [processEvent, handlePatchEnd]
  · intro h
    by_cases hs : ev.success <;>
      simp [processEvent, handlePatchEnd, h, emitStatus, hs]
  · intro entry h
    by_cases hs : ev.success <;>
      by_cases ha : entry.auto_approved <;>
        simp [processEvent, handlePatchEnd, h, emitStatus, hs, ha, String.append_assoc]

/-- C6: every event tag in the suppressed set (streaming deltas,
reasoning traces, approval requests, tool-call begin/end, search
begin/end, session-configured, history/listing responses, review-mode
transitions, background events, command output deltas) produces no
console or transcript output, delegates no write, and leaves the whole
renderer state — both correlation maps, the usage snapshot, the styles,
the last-message path — unchanged. -/
theorem suppressed_events_silent (ext : Ext) (st : State) (e : EventMsg)
    (h : suppressedTag e = true) :
    processEvent ext st e =
      { status := CodexStatus.Running, state := st, output := [],
        lastMessageWrite := none } := by
  cases e <;> first
    | rfl
    | exact absurd h (by simp [suppressedTag])

/-- C6 witness: a concrete suppressed event (session-configured) on a
concrete state: nothing is emitted, nothing changes. -/
theorem suppressed_events_silent_witness :
    processEvent ext0 st0 (EventMsg.SessionConfigured ()) =
      { status := CodexStatus.Running, state := st0, output := [],
        lastMessageWrite := none } :=
  suppressed_events_silent ext0 st0 (EventMsg.SessionConfigured ()) rfl

/-- Emitting each string of a list as a plain line. -/
theorem flatMap_emitPlainLine (l : List String) :
    l.flatMap emitPlainLine = l.map Line.plain := by
  induction l with
  | nil => rfl
  | cons a l ih => simp [List.flatMap_cons, emitPlainLine, ih]

/-- C9 counterexample: a present, non-empty but all-whitespace
explanation (`" "`) is NOT emitted — the plan-update handler only
emits the explanation when it is non-blank after trimming, so the claim
"if a non-empty explanation string is present it emits the explanation"
fails at this input. -/
theorem planUpdate_blank_explanation_dropped :
    (some " " : Option String).isSome = true ∧
    (" " : String) ≠ "" ∧
    (processEvent ext0 st0 (EventMsg.PlanUpdate ⟨some " ", []⟩)).output =
      [Line.status "Plan update" Style.default] ∧
    Line.plain " " ∉ (processEvent ext0 st0 (EventMsg.PlanUpdate ⟨some " ", []⟩)).output :=
  ⟨rfl, by decide, rfl, by decide⟩

/-- C9 (amended): every plan-update event emits an info-styled "Plan
update" header; a present explanation is emitted exactly when it is
non-blank after trimming; then exactly one line per plan step follows,
prefixed by the glyph of the step's status, with the three statuses
mapped to three distinct single-character markers. -/
theorem planUpdate_render (ext : Ext) (st : State) (plan : UpdatePlanArgs) :
    (processEvent ext st (EventMsg.PlanUpdate plan)).output =
      Line.status "Plan update" st.info_style ::
        ((match plan.explanation with
          | some explanation => if isBlank explanation then [] else [Line.plain explanation]
          | none => []) ++
          plan.plan.map (fun item => Line.plain (stepMarker item.status ++ " " ++ item.step))) ∧
    (processEvent ext st (EventMsg.PlanUpdate plan)).state = st ∧
    (∀ s : StepStatus, (stepMarker s).length = 1) ∧
    stepMarker StepStatus.Completed ≠ stepMarker StepStatus.InProgress ∧
    stepMarker StepStatus.Completed ≠ stepMarker StepStatus.Pending ∧
    stepMarker StepStatus.InProgress ≠ stepMarker StepStatus.Pending := by
  refine ⟨?_, rfl, by intro s; cases s <;> decide, by decide, by decide, by decide⟩
  cases hex : plan.explanation with
  | none =>
      simp [processEvent, handlePlanUpdate, hex, emitStatus, flatMap_emitPlainLine]
  | some explanation =>
      by_cases hb : isBlank explanation <;>
        simp [processEvent, handlePlanUpdate, hex, hb, emitStatus, emitPlainLine,
          flatMap_emitPlainLine]

/-- C8 counterexample: at a concrete configuration the summary's line
sequence is NOT "banner, session, model, sandbox entries, working
directory, prompt" — between the working-directory line and the prompt
body the renderer also emits a "Prompt:" status line, which the claim's
enumeration omits. -/
theorem configSummary_emits_prompt_header :
    (printConfigSummary "1.0.0" st0 ⟨[], "/w"⟩ "hi" ⟨"s", "m"⟩).2 ≠
      [Line.status "Codex (v1.0.0) non-interactive session" Style.default,
       Line.status "Session s using model m" Style.default,
       Line.status "model: m" Style.default,
       Line.status "Working directory: /w" Style.default,
       Line.plain "hi"] ∧
    (printConfigSummary "1.0.0" st0 ⟨[], "/w"⟩ "hi" ⟨"s", "m"⟩).2 =
      [Line.status "Codex (v1.0.0) non-interactive session" Style.default,
       Line.status "Session s using model m" Style.default,
       Line.status "model: m" Style.default,
       Line.status "Working directory: /w" Style.default,
       Line.status "Prompt:" Style.default,
       Line.plain "hi"] := by
  exact ⟨by decide, rfl⟩

/-- Emitting one line for the entries satisfying a key predicate and
nothing for the rest is filtering followed by rendering. -/
theorem flatMap_ite_singleton_eq_filter_map {α β : Type} (p : α → Prop)
    [DecidablePred p] (f : α → β) (l : List α) :
    (l.flatMap fun a => if p a then [f a] else []) =
      (l.filter fun a => decide (p a)).map f := by
  induction l with
  | nil => rfl
  | cons a l ih =>
      by_cases h : p a <;> simp [List.flatMap_cons, List.filter_cons, h, ih]

/-- C8 (amended): the config summary emits, in order: the version
banner, the session line, the model line, one info line per
configuration entry whose key is exactly "sandbox" (every other entry
is suppressed), the working-directory line, a "Prompt:" header line,
and the prompt echoed verbatim, one plain line per input line; the
renderer state is unchanged. -/
theorem configSummary_render (version : String) (st : State) (config : Config)
    (prompt : String) (sess : SessionConfiguredEvent) :
    (printConfigSummary version st config prompt sess).2 =
      Line.status ("Codex (v" ++ version ++ ") non-interactive session") st.status_style ::
      Line.status ("Session " ++ sess.session_id ++ " using model " ++ sess.model)
          st.info_style ::
      Line.status ("model: " ++ sess.model) st.info_style ::
      ((config.summary_entries.filter fun kv => decide (kv.1 = "sandbox")).map
          (fun kv => Line.status (kv.1 ++ ": " ++ kv.2) st.info_style) ++
        (Line.status ("Working directory: " ++ config.cwd) st.info_style ::
         Line.status "Prompt:" st.status_style ::
         (rustLines prompt).map Line.plain)) ∧
    (printConfigSummary version st config prompt sess).1 = st := by
  refine ⟨?_, rfl⟩
  simp [printConfigSummary, emitStatus, emitMultiline,
    flatMap_ite_singleton_eq_filter_map (fun kv : String × String => kv.1 = "sandbox")
      (fun kv => Line.status (kv.1 ++ ": " ++ kv.2) st.info_style)]

/-- C7: sink construction creates the parent directory chain when the
path has one and opens the file with create+truncate+write, propagating
the first I/O error to the caller; `write_line` appends the text plus a
newline and immediately flushes, and a write or flush failure is
reported as a diagnostic while the call returns normally (the file
state is at worst behind, never an exception). -/
theorem transcriptLog_error_handling (fs : FsOracle) (path : FilePathM)
    (log : TranscriptLog) (line : String) :
    (∀ p e, path.parent = some p → fs.createDirAll p = Except.error e →
      TranscriptLog.create fs path = (Except.error e, [FsOp.createDirAll p])) ∧
    (∀ p e, path.parent = some p → fs.createDirAll p = Except.ok () →
      fs.openFile path.full { create := true, truncate := true, write := true }
        = Except.error e →
      TranscriptLog.create fs path =
        (Except.error e,
          [FsOp.createDirAll p,
           FsOp.openFile path.full { create := true, truncate := true, write := true }])) ∧
    (∀ e, path.parent = none →
      fs.openFile path.full { create := true, truncate := true, write := true }
        = Except.error e →
      TranscriptLog.create fs path =
        (Except.error e,
          [FsOp.openFile path.full { create := true, truncate := true, write := true }])) ∧
    (∀ p, path.parent = some p → fs.createDirAll p = Except.ok () →
      fs.openFile path.full { create := true, truncate := true, write := true }
        = Except.ok () →
      TranscriptLog.create fs path =
        (Except.ok { fileContent := "", pending := "" },
          [FsOp.createDirAll p,
           FsOp.openFile path.full { create := true, truncate := true, write := true }])) ∧
    (path.parent = none →
      fs.openFile path.full { create := true, truncate := true, write := true }
        = Except.ok () →
      TranscriptLog.create fs path =
        (Except.ok { fileContent := "", pending := "" },
          [FsOp.openFile path.full { create := true, truncate := true, write := true }])) ∧
    (TranscriptLog.write_line log line none none =
      ({ fileContent := log.fileContent ++ (log.pending ++ line ++ "\n"), pending := "" },
        [])) ∧
    (∀ e, TranscriptLog.write_line log line (some e) none =
      (log, ["Failed to write transcript log line: " ++ e.msg])) ∧
    (∀ e f, TranscriptLog.write_line log line (some e) (some f) =
      (log, ["Failed to write transcript log line: " ++ e.msg])) ∧
    (∀ e, TranscriptLog.write_line log line none (some e) =
      ({ log with pending := log.pending ++ line ++ "\n" },
        ["Failed to flush transcript log: " ++ e.msg])) := by
  refine ⟨?_, ?_, ?_, ?_, ?_, rfl, fun e => rfl, fun e f => rfl, fun e => rfl⟩
  · intro p e hp he
    simp [TranscriptLog.create, hp, he]
  · intro p e hp hc he
    simp [TranscriptLog.create, hp, hc, he]
  · intro e hp he
    simp [TranscriptLog.create, hp, he]
  · intro p hp hc ho
    simp [TranscriptLog.create, hp, hc, ho]
  · intro hp ho
    simp [TranscriptLog.create, hp, ho]

/-- Processing an event that is not a command-begin for call id `c`
never makes a pending-command entry for `c` appear. -/
theorem processEvent_preserves_command_absence (ext : Ext) (st : State) (e : EventMsg)
    (c : String) (hb : beginsCommandFor c e = false)
    (h : st.call_id_to_command c = none) :
    (processEvent ext st e).state.call_id_to_command c = none := by
  cases e
  case ExecCommandBegin ev =>
    have hb2 : ev.call_id ≠ c := by simpa [beginsCommandFor] using hb
    simp [processEvent, handleExecBegin, h, hb2.symm]
  all_goals
    simp_all [processEvent, beginsCommandFor, handleExecBegin, handleExecEnd,
      handlePatchBegin, handlePatchEnd, handlePlanUpdate, handleTokenCount,
      emitFinalTokenUsage] <;>
    try (split <;> simp_all)

/-- C10: consuming a pending command is one-shot — after a command-end
for call id `c` the entry is gone; absence of `c` survives any sequence
of events none of which is a command-begin for `c`; and a command-end
arriving while `c` is absent renders the synthesized `"command <id>"`
label with the event's self-reported formatted duration. -/
theorem pendingCommand_one_shot (ext : Ext) (st : State) (c : String)
    (ec : Int) (d : Nat) :
    (processEvent ext st (EventMsg.ExecCommandEnd ⟨c, ec, d⟩)).state.call_id_to_command c
      = none ∧
    (∀ (st' : State) (es : List (Ext × EventMsg)),
      st'.call_id_to_command c = none →
      (∀ p ∈ es, beginsCommandFor c p.2 = false) →
      (processEvents st' es).1.call_id_to_command c = none) ∧
    (∀ (ext' : Ext) (st' : State), st'.call_id_to_command c = none →
      (processEvent ext' st' (EventMsg.ExecCommandEnd ⟨c, ec, d⟩)).output =
        [Line.status
          ((if ec = 0 then "Command succeeded (exit " else "Command failed (exit ")
            ++ toString ec ++ ", " ++ ext'.fmtDuration d ++ "): command " ++ c)
          (if ec = 0 then st'.success_style else st'.error_style)]) := by
  refine ⟨?_, ?_, ?_⟩
  · simp only [processEvent, handleExecEnd]
    split <;> simp
  · intro st' es
    induction es generalizing st' with
    | nil => intro h _; exact h
    | cons p es ih =>
        intro h hall
        exact ih _
          (processEvent_preserves_command_absence p.1 st' p.2 c
            (hall p (List.mem_cons_self p es)) h)
          (fun q hq => hall q (List.mem_cons_of_mem p hq))
  · intro ext' st' h
    by_cases hz : ec = 0 <;>
      simp [processEvent, handleExecEnd, h, emitStatus, hz, String.append_assoc,
        cmd_label_fuse]

/-- A list is a prefix of itself followed by anything. -/
theorem isPrefixOf_append_self (l t : List Char) : l.isPrefixOf (l ++ t) = true := by
  induction l with
  | nil => simp [List.isPrefixOf]
  | cons c cs ih => simp [List.isPrefixOf, ih]

/-- The final-usage line is recognized as such. -/
theorem isTotalLine_total (sty : Style) (n : Nat) :
    isTotalLine (Line.status ("Total tokens used: " ++ toString n) sty) = true := by
  simp [isTotalLine, String.data_append, isPrefixOf_append_self]

/-- An event carries usage exactly when `usageOf` yields a record. -/
theorem carriesUsage_eq_isSome_usageOf (e : EventMsg) :
    carriesUsage e = (usageOf e).isSome := by
  cases e <;> rfl

/-- Processing any event other than task completion leaves the usage
snapshot as the token-count handler prescribes: overwritten by carried
usage info, untouched otherwise. -/
theorem processEvent_latest_usage (ext : Ext) (st : State) (e : EventMsg)
    (h : isTaskCompleteEv e = false) :
    (processEvent ext st e).state.latest_token_usage
      = (usageOf e).or st.latest_token_usage := by
  cases e
  case TaskComplete ev => exact absurd h (by simp [isTaskCompleteEv])
  case TokenCount ev =>
    cases hinfo : ev.info <;>
      simp [processEvent, handleTokenCount, usageOf, hinfo, Option.or]
  all_goals
    simp [processEvent, usageOf, Option.or, handleExecBegin, handleExecEnd,
      handlePatchBegin, handlePatchEnd, handlePlanUpdate] <;>
    try (split <;> rfl)

/-- Folding a task-completion-free event sequence leaves the snapshot
at the last carried usage record (the initial one if none occurs). -/
theorem processEvents_latest_usage (es : List (Ext × EventMsg)) (st : State)
    (h : ∀ p ∈ es, isTaskCompleteEv p.2 = false) :
    (processEvents st es).1.latest_token_usage = lastUsage st.latest_token_usage es := by
  induction es generalizing st with
  | nil => rfl
  | cons p es ih =>
      have hstep := processEvent_latest_usage p.1 st p.2 (h p (List.mem_cons_self _ es))
      simp only [processEvents, lastUsage]
      rw [ih _ (fun q hq => h q (List.mem_cons_of_mem _ hq)), hstep]

/-- The snapshot after a fold is present exactly when a usage-carrying
token-count event occurred or the initial snapshot was present. -/
theorem lastUsage_isSome (es : List (Ext × EventMsg)) (init : Option TokenUsageInfo) :
    (lastUsage init es).isSome = ((es.any fun p => carriesUsage p.2) || init.isSome) := by
  induction es generalizing init with
  | nil => simp [lastUsage]
  | cons p es ih =>
      simp only [lastUsage, List.any_cons]
      rw [ih]
      cases hu : usageOf p.2 <;>
        simp [carriesUsage_eq_isSome_usageOf, hu, Option.or, Bool.or_comm,
          Bool.or_assoc, Bool.or_left_comm]

/-- No event other than task completion emits a final-usage line. -/
theorem processEvent_no_total_line (ext : Ext) (st : State) (e : EventMsg)
    (h : isTaskCompleteEv e = false) :
    ∀ l ∈ (processEvent ext st e).output, isTotalLine l = false := by
  intro l hl
  cases e
  case TaskComplete ev => exact absurd h (by simp [isTaskCompleteEv])
  case ExecCommandEnd ev =>
    by_cases hz : ev.exit_code = 0 <;>
      simp_all [processEvent, handleExecEnd, emitStatus, isTotalLine,
        String.data_append, List.isPrefixOf]
  case PatchApplyEnd ev =>
    cases hp : st.call_id_to_patch ev.call_id <;>
      by_cases hs : ev.success <;>
        simp_all [processEvent, handlePatchEnd, emitStatus, isTotalLine,
          String.data_append, List.isPrefixOf]
  case AgentMessage message =>
    by_cases hb : isBlank message <;>
      simp_all [processEvent, emitStatus, emitMultiline]
    rcases hl with rfl | ⟨a, ha, rfl⟩ <;> rfl
  case PlanUpdate ev =>
    rcases hex : ev.explanation with _ | explanation
    · simp_all [processEvent, handlePlanUpdate, hex, emitStatus, emitPlainLine,
        flatMap_emitPlainLine]
      rcases hl with rfl | ⟨a, ha, rfl⟩ <;> rfl
    · by_cases hb : isBlank explanation <;>
        simp_all [processEvent, handlePlanUpdate, hex, emitStatus, emitPlainLine,
          flatMap_emitPlainLine]
      · rcases hl with rfl | ⟨a, ha, rfl⟩ <;> rfl
      · rcases hl with rfl | rfl | ⟨a, ha, rfl⟩ <;> rfl
  all_goals
    simp_all [processEvent, handleExecBegin, handlePatchBegin, handleTokenCount,
      emitStatus, emitPlainLine, emitMultiline, isTotalLine, String.data_append,
      List.isPrefixOf]

/-- No final-usage line anywhere in the output of a task-completion-free
event sequence. -/
theorem processEvents_no_total_line (es : List (Ext × EventMsg)) (st : State)
    (h : ∀ p ∈ es, isTaskCompleteEv p.2 = false) :
    ∀ l ∈ (processEvents st es).2, isTotalLine l = false := by
  induction es generalizing st with
  | nil => intro l hl; simp [processEvents] at hl
  | cons p es ih =>
      intro l hl
      simp only [processEvents, List.mem_append] at hl
      rcases hl with hl | hl
      · exact processEvent_no_total_line p.1 st p.2 (h p (List.mem_cons_self _ _)) l hl
      · exact ih _ (fun q hq => h q (List.mem_cons_of_mem _ hq)) l hl

/-- The task-completion banner lines are not final-usage lines. -/
theorem isTotalLine_task_complete (sty : Style) :
    isTotalLine (Line.status "Task complete (no final message)." sty) = false := rfl

/-- The final-result banner is not a final-usage line. -/
theorem isTotalLine_final_result (sty : Style) :
    isTotalLine (Line.status "Final result:" sty) = false := rfl

/-- Plain body lines are never final-usage lines. -/
theorem isTotalLine_plain (s : String) : isTotalLine (Line.plain s) = false := rfl

/-- Plain body lines contribute no final-usage count. -/
theorem countP_plain_map_zero (ls : List String) :
    (ls.map Line.plain).countP isTotalLine = 0 := by
  induction ls with
  | nil => rfl
  | cons a ls ih => simp [List.countP_cons, isTotalLine, ih]

/-- C5: over any session (a task-completion-free event sequence closed
by one task-complete event, starting from a fresh renderer), the
retained snapshot is always the last carried usage record (overwritten,
never accumulated); a token-count event without usage info is a
complete no-op and one with usage info only overwrites the snapshot; no
"Total tokens used" line is emitted before task completion; at task
completion that line is emitted exactly once if a usage-carrying
token-count event was observed and not at all otherwise; and the
snapshot is cleared afterwards. -/
theorem token_usage_session (wa : Bool) (lmp : Option String) (tl : Bool)
    (extF : Ext) (es : List (Ext × EventMsg)) (m : Option String)
    (h : ∀ p ∈ es, isTaskCompleteEv p.2 = false) :
    (processEvents (State.new wa lmp tl) es).1.latest_token_usage = lastUsage none es ∧
    (∀ ext st, processEvent ext st (EventMsg.TokenCount ⟨none⟩) =
      { status := CodexStatus.Running, state := st, output := [],
        lastMessageWrite := none }) ∧
    (∀ ext st i, (processEvent ext st (EventMsg.TokenCount ⟨some i⟩)).state =
        { st with latest_token_usage := some i } ∧
      (processEvent ext st (EventMsg.TokenCount ⟨some i⟩)).output = []) ∧
    (∀ l ∈ (processEvents (State.new wa lmp tl) es).2, isTotalLine l = false) ∧
    ((processEvent extF (processEvents (State.new wa lmp tl) es).1
        (EventMsg.TaskComplete ⟨m⟩)).output.countP isTotalLine
      = if es.any (fun p => carriesUsage p.2) then 1 else 0) ∧
    (processEvent extF (processEvents (State.new wa lmp tl) es).1
        (EventMsg.TaskComplete ⟨m⟩)).state.latest_token_usage = none := by
  have hlatest : (processEvents (State.new wa lmp tl) es).1.latest_token_usage
      = lastUsage none es :=
    processEvents_latest_usage es (State.new wa lmp tl) h
  have hany : (lastUsage none es).isSome = es.any (fun p => carriesUsage p.2) := by
    rw [lastUsage_isSome]; simp
  refine ⟨hlatest, fun ext st => rfl, fun ext st i => ⟨rfl, rfl⟩,
    processEvents_no_total_line es _ h, ?_, ?_⟩
  · simp only [processEvent, List.countP_append]
    have hmsg :
        (match m with
          | some message =>
              if ¬(isBlank message) then
                emitStatus "Final result:"
                    (processEvents (State.new wa lmp tl) es).1.status_style
                  ++ emitMultiline message
              else
                emitStatus "Task complete (no final message)."
                  (processEvents (State.new wa lmp tl) es).1.status_style
          | none =>
              emitStatus "Task complete (no final message)."
                (processEvents (State.new wa lmp tl) es).1.status_style).countP isTotalLine
          = 0 := by
      cases m with
      | none => simp [emitStatus, List.countP_cons, isTotalLine_task_complete]
      | some message =>
          by_cases hb : isBlank message <;>
            simp [hb, emitStatus, emitMultiline, List.countP_cons, List.countP_append,
              isTotalLine_task_complete, isTotalLine_final_result, countP_plain_map_zero,
              isTotalLine_plain]
    rw [hmsg]
    cases hsnap : (processEvents (State.new wa lmp tl) es).1.latest_token_usage with
    | none =>
        have : es.any (fun p => carriesUsage p.2) = false := by
          rw [← hany, ← hlatest, hsnap]; rfl
        simp [emitFinalTokenUsage, hsnap, this]
    | some info =>
        have : es.any (fun p => carriesUsage p.2) = true := by
          rw [← hany, ← hlatest, hsnap]; rfl
        simp [emitFinalTokenUsage, hsnap, this, emitStatus, List.countP_cons,
          isTotalLine_total]
  · simp only [processEvent]
    cases hsnap : (processEvents (State.new wa lmp tl) es).1.latest_token_usage <;>
      simp [emitFinalTokenUsage, hsnap]

/-- A concrete task-completion-free session prefix: usage 3, a command
begin, then usage 42 (the retained snapshot must end at 42). -/
def demoEs : List (Ext × EventMsg) :=
  [(ext0, EventMsg.TokenCount ⟨some ⟨⟨3⟩⟩⟩),
   (ext0, EventMsg.ExecCommandBegin ⟨"1", ["echo", "hi"]⟩),
   (ext0, EventMsg.TokenCount ⟨some ⟨⟨42⟩⟩⟩)]

/-- C5 witness: the session property instantiated at the concrete
prefix `demoEs` closed by `TaskComplete (some "done")`. -/
theorem token_usage_session_witness :
    (processEvents (State.new false none false) demoEs).1.latest_token_usage
        = lastUsage none demoEs ∧
    (∀ ext st, processEvent ext st (EventMsg.TokenCount ⟨none⟩) =
      { status := CodexStatus.Running, state := st, output := [],
        lastMessageWrite := none }) ∧
    (∀ ext st i, (processEvent ext st (EventMsg.TokenCount ⟨some i⟩)).state =
        { st with latest_token_usage := some i } ∧
      (processEvent ext st (EventMsg.TokenCount ⟨some i⟩)).output = []) ∧
    (∀ l ∈ (processEvents (State.new false none false) demoEs).2, isTotalLine l = false) ∧
    ((processEvent ext0 (processEvents (State.new false none false) demoEs).1
        (EventMsg.TaskComplete ⟨some "done"⟩)).output.countP isTotalLine
      = if demoEs.any (fun p => carriesUsage p.2) then 1 else 0) ∧
    (processEvent ext0 (processEvents (State.new false none false) demoEs).1
        (EventMsg.TaskComplete ⟨some "done"⟩)).state.latest_token_usage = none :=
  token_usage_session false none false ext0 demoEs (some "done") (by decide)

end Codex
